import Mathlib

/-!
Shallow embedding of the generic CRUD persistence layer of the repository:
the backend `BaseRepository` class (src/backend/src/database/base.repository.ts),
the backend `BaseService` class (src/backend/src/database/base.service.ts), and
the alternative repository variant (src/src/database/base.repository.ts).

A storage delegate operation is modelled as a pure function returning
`Except RawError α`: `.ok` is a successfully awaited promise, `.error` a
rejection carrying the raw storage error.  The NestJS exceptions thrown by
the layer (`ConflictException`, `NotFoundException`,
`InternalServerErrorException`) are modelled by `RepoError`.  Each repository
method and each service method also records the list of parameter objects it
passed to its callee, so that single-invocation and payload-pass-through
properties are expressible.
-/

/-- Shape of the `meta.target` field of a raw storage error, as JavaScript
sees it: nullish (meta absent, or target null/undefined), an array of field
names (JS arrays have a `join` method and are always truthy), or a
non-nullish non-array value, which has no `join` method; for the latter we
record its truthiness, tested by the backend variant's guard. -/
inductive MetaTarget where
  | nullish : MetaTarget
  | arr (fields : List String) : MetaTarget
  | nonArr (truthy : Bool) : MetaTarget
deriving DecidableEq

/-- Raw error with which a storage delegate call rejects.  `known` models
`error instanceof Prisma.PrismaClientKnownRequestError`, `code` the Prisma
error code string, `target` the `meta.target` metadata. -/
structure RawError where
  known : Bool
  code : String
  target : MetaTarget
deriving DecidableEq

/-- Normalized error taxonomy thrown by the layer, each with its message:
`conflict` models `ConflictException`, `notFound` models
`NotFoundException`, `internal` models `InternalServerErrorException`. -/
inductive RepoError where
  | conflict (msg : String) : RepoError
  | notFound (msg : String) : RepoError
  | internal (msg : String) : RepoError
deriving DecidableEq

/-- Result of one repository method call: the parameter objects passed to the
underlying delegate operation, in order, and the value returned or the
normalized error thrown. -/
structure RepoCall (P A : Type) where
  invocations : List P
  result : Except RepoError A

namespace BaseRepository

variable {P M : Type}

/-- Helper `getTargetFields` of the backend variant
(src/backend/src/database/base.repository.ts): returns the joined field
names when `meta.target` is present, truthy and an array (the
`Array.isArray` guard), and the fallback string otherwise. -/
def getTargetFields (error : RawError) : String :=
  match error.target with
  | .arr fields => String.intercalate ", " fields
  | _ => "details unavailable"

/-- Method `findUnique`: one delegate invocation; returns the delegate's
value unchanged (possibly null, i.e. `none`); any rejection is normalized to
`InternalServerErrorException`. -/
def findUnique (delegate_findUnique : P → Except RawError (Option M))
    (params : P) : RepoCall P (Option M) :=
  ⟨[params],
    match delegate_findUnique params with
    | .ok v => .ok v
    | .error _ => .error (.internal "Error retrieving the record.")⟩

/-- Method `findMany`: one delegate invocation; any rejection is normalized
to `InternalServerErrorException`. -/
def findMany (delegate_findMany : P → Except RawError (List M))
    (params : P) : RepoCall P (List M) :=
  ⟨[params],
    match delegate_findMany params with
    | .ok v => .ok v
    | .error _ => .error (.internal "Error retrieving records.")⟩

/-- Method `create`: one delegate invocation; a known request error with
code P2002 is normalized to `ConflictException` with the target fields in
the message, anything else to `InternalServerErrorException`. -/
def create (delegate_create : P → Except RawError M)
    (params : P) : RepoCall P M :=
  ⟨[params],
    match delegate_create params with
    | .ok v => .ok v
    | .error error =>
      if error.known && error.code == "P2002" then
        .error (.conflict ("Unique constraint violation: " ++ getTargetFields error))
      else
        .error (.internal "Error creating the record.")⟩

/-- Method `update`: one delegate invocation; a known request error with
code P2025 is normalized to `NotFoundException`, one with code P2002 to
`ConflictException` with the target fields, anything else to
`InternalServerErrorException`. -/
def update (delegate_update : P → Except RawError M)
    (params : P) : RepoCall P M :=
  ⟨[params],
    match delegate_update params with
    | .ok v => .ok v
    | .error error =>
      if error.known then
        if error.code == "P2025" then
          .error (.notFound "Record to update not found.")
        else if error.code == "P2002" then
          .error (.conflict ("Unique constraint violation: " ++ getTargetFields error))
        else
          .error (.internal "Error updating the record.")
      else
        .error (.internal "Error updating the record.")⟩

/-- Method `delete`: one delegate invocation; a known request error with
code P2025 is normalized to `NotFoundException`, anything else to
`InternalServerErrorException`. -/
def delete (delegate_delete : P → Except RawError M)
    (params : P) : RepoCall P M :=
  ⟨[params],
    match delegate_delete params with
    | .ok v => .ok v
    | .error error =>
      if error.known && error.code == "P2025" then
        .error (.notFound "Record to delete not found.")
      else
        .error (.internal "Error deleting the record.")⟩

/-- Method `count`: one delegate invocation; any rejection is normalized to
`InternalServerErrorException`. -/
def count (delegate_count : P → Except RawError Nat)
    (params : P) : RepoCall P Nat :=
  ⟨[params],
    match delegate_count params with
    | .ok v => .ok v
    | .error _ => .error (.internal "Error counting records.")⟩

end BaseRepository

namespace BaseService

/-- Constructor-fixed configuration of a concrete service: the primary key
field name `idKey` (source default "id") and the abstract `getEntityName`,
whose argument `true` requests the plural form and `false` the singular. -/
structure Ctx where
  idKey : String
  getEntityName : Bool → String

/-- Single-field identifier filter built by the service: the object whose
sole key is `idKey`, mapped to `id`. -/
structure IdWhere (Id : Type) where
  key : String
  id : Id
deriving DecidableEq

/-- Parameter object the service passes to `repository.findUnique`: the
identifier filter spread together with the optional `include`/`select`
projection options (modelled opaquely by `repoParams`). -/
structure FindUniqueParams (Id R : Type) where
  where_ : IdWhere Id
  repoParams : Option R

/-- Parameter object the service passes to `repository.create`: the DTO as
the `data` payload spread together with the optional projection options. -/
structure CreateParams (D R : Type) where
  data : D
  repoParams : Option R

/-- Parameter object the service passes to `repository.update`: identifier
filter, DTO as `data`, optional projection options. -/
structure UpdateParams (Id D R : Type) where
  where_ : IdWhere Id
  data : D
  repoParams : Option R

/-- Parameter object the service passes to `repository.delete`: the
identifier filter only. -/
structure DeleteParams (Id : Type) where
  where_ : IdWhere Id

/-- Result of one service method call: the parameter objects passed to the
repository method, in order, and the value returned or the error thrown. -/
structure Call (P A : Type) where
  repoInvocations : List P
  result : Except RepoError A

variable {M Id D R : Type} [ToString Id]

/-- Method `create` of the backend service: passes the DTO through as the
`data` payload of one `repository.create` call; re-throws a
`ConflictException`; wraps any other failure in an
`InternalServerErrorException` naming the entity in singular form. -/
def create (ctx : Ctx)
    (repository_create : CreateParams D R → Except RepoError M)
    (createDto : D) (repoParams : Option R) : Call (CreateParams D R) M :=
  let params : CreateParams D R := ⟨createDto, repoParams⟩
  ⟨[params],
    match repository_create params with
    | .ok v => .ok v
    | .error (.conflict m) => .error (.conflict m)
    | .error _ =>
      .error (.internal ("Could not create " ++ ctx.getEntityName false ++ "."))⟩

/-- Method `findOneById` of the backend service: builds the identifier
filter, calls `repository.findUnique` once inside try/catch (any failure
becomes an `InternalServerErrorException` naming entity and id), then —
outside the try block — translates a null result into a `NotFoundException`
naming entity and id. -/
def findOneById (ctx : Ctx)
    (repository_findUnique : FindUniqueParams Id R → Except RepoError (Option M))
    (id : Id) (repoParams : Option R) : Call (FindUniqueParams Id R) M :=
  let w : IdWhere Id := ⟨ctx.idKey, id⟩
  let params : FindUniqueParams Id R := ⟨w, repoParams⟩
  ⟨[params],
    match repository_findUnique params with
    | .error _ =>
      .error (.internal ("An error occurred while retrieving "
        ++ ctx.getEntityName false ++ " with ID " ++ toString id ++ "."))
    | .ok none =>
      .error (.notFound (ctx.getEntityName false ++ " with ID "
        ++ toString id ++ " not found."))
    | .ok (some entity) => .ok entity⟩

/-- Method `update` of the backend service: builds the identifier filter,
calls `repository.update` once, re-throws `NotFoundException` and
`ConflictException`, and wraps anything else in an
`InternalServerErrorException` naming entity and id. -/
def update (ctx : Ctx)
    (repository_update : UpdateParams Id D R → Except RepoError M)
    (id : Id) (updateDto : D) (repoParams : Option R) :
    Call (UpdateParams Id D R) M :=
  let w : IdWhere Id := ⟨ctx.idKey, id⟩
  let params : UpdateParams Id D R := ⟨w, updateDto, repoParams⟩
  ⟨[params],
    match repository_update params with
    | .ok v => .ok v
    | .error (.notFound m) => .error (.notFound m)
    | .error (.conflict m) => .error (.conflict m)
    | .error _ =>
      .error (.internal ("Could not update " ++ ctx.getEntityName false
        ++ " with ID " ++ toString id ++ "."))⟩

/-- Method `delete` of the backend service: builds the identifier filter,
calls `repository.delete` once, re-throws only `NotFoundException`, and
wraps anything else — a `ConflictException` included — in an
`InternalServerErrorException` naming entity and id. -/
def delete (ctx : Ctx)
    (repository_delete : DeleteParams Id → Except RepoError M)
    (id : Id) : Call (DeleteParams Id) M :=
  let w : IdWhere Id := ⟨ctx.idKey, id⟩
  let params : DeleteParams Id := ⟨w⟩
  ⟨[params],
    match repository_delete params with
    | .ok v => .ok v
    | .error (.notFound m) => .error (.notFound m)
    | .error _ =>
      .error (.internal ("Could not delete " ++ ctx.getEntityName false
        ++ " with ID " ++ toString id ++ "."))⟩

end BaseService

/-- Full read pipeline: `service.findOneById` running over
`repository.findUnique` running over a delegate lookup function. -/
def findOneByIdPipeline {M Id R : Type} [ToString Id] (ctx : BaseService.Ctx)
    (delegate_findUnique :
      BaseService.FindUniqueParams Id R → Except RawError (Option M))
    (id : Id) (repoParams : Option R) :
    BaseService.Call (BaseService.FindUniqueParams Id R) M :=
  BaseService.findOneById ctx
    (fun p => (BaseRepository.findUnique delegate_findUnique p).result)
    id repoParams

namespace SrcVariant

variable {P M : Type}

/-- Outcome of a repository method of the src/src variant
(src/src/database/base.repository.ts), where the catch block itself may
throw: the returned value, a normalized error thrown, or a secondary raw
throw (a TypeError) escaping the normalization branch. -/
inductive Outcome (M : Type) where
  | ok (v : M) : Outcome M
  | err (e : RepoError) : Outcome M
  | secondaryThrow : Outcome M
deriving DecidableEq

/-- Helper `getTargetFields` of the src/src variant, the expression
`error.meta?.target?.join` applied to a separator with fallback via `??`:
optional chaining guards only a nullish target, so a non-nullish non-array
target — which has no `join` method — makes the call itself throw a
TypeError, modelled here by `.error ()`. -/
def getTargetFields (error : RawError) : Except Unit String :=
  match error.target with
  | .nullish => .ok "details unavailable"
  | .arr fields => .ok (String.intercalate ", " fields)
  | .nonArr _ => .error ()

/-- Method `create` of the src/src variant: same normalization as the
backend, except that building the `ConflictException` message may itself
throw inside `getTargetFields`. -/
def create (delegate_create : P → Except RawError M)
    (params : P) : Outcome M :=
  match delegate_create params with
  | .ok v => .ok v
  | .error error =>
    if error.known && error.code == "P2002" then
      match getTargetFields error with
      | .ok s => .err (.conflict ("Unique constraint violation: " ++ s))
      | .error _ => .secondaryThrow
    else
      .err (.internal "Error creating the record.")

/-- Method `update` of the src/src variant: same normalization as the
backend, except that building the `ConflictException` message may itself
throw inside `getTargetFields`. -/
def update (delegate_update : P → Except RawError M)
    (params : P) : Outcome M :=
  match delegate_update params with
  | .ok v => .ok v
  | .error error =>
    if error.known then
      if error.code == "P2025" then .err (.notFound "Record to update not found.")
      else if error.code == "P2002" then
        match getTargetFields error with
        | .ok s => .err (.conflict ("Unique constraint violation: " ++ s))
        | .error _ => .secondaryThrow
      else .err (.internal "Error updating the record.")
    else
      .err (.internal "Error updating the record.")

end SrcVariant

/-- Concrete service configuration used to instantiate the theorems on small
inputs: entity name "User" (plural "Users"), primary key field "id". -/
def userCtx : BaseService.Ctx :=
  ⟨"id", fun plural => if plural then "Users" else "User"⟩

/-- Delegate call that rejects with a known P2002 error whose metadata
target is the field array containing "email". -/
def failP2002Arr : Unit → Except RawError Unit :=
  fun _ => Except.error ⟨true, "P2002", .arr ["email"]⟩

/-- Delegate call that rejects with a known P2025 error. -/
def failP2025 : Unit → Except RawError Unit :=
  fun _ => Except.error ⟨true, "P2025", .nullish⟩

/-- C1: when the delegate invocation inside `BaseRepository.create` fails, a
recognized storage error with the unique-constraint code P2002 yields a
`ConflictException` whose message joins the metadata target field names when
that metadata is available as an array and carries the fallback
"details unavailable" otherwise; any other failure yields an
`InternalServerErrorException`. -/
theorem repository_create_error_taxonomy {P M : Type}
    (delegate_create : P → Except RawError M) (params : P) (error : RawError)
    (h : delegate_create params = .error error) :
    (∀ fields, error.known = true → error.code = "P2002" →
      error.target = .arr fields →
      (BaseRepository.create delegate_create params).result
        = .error (.conflict ("Unique constraint violation: "
            ++ String.intercalate ", " fields)))
    ∧ (error.known = true → error.code = "P2002" →
      (∀ fields, error.target ≠ .arr fields) →
      (BaseRepository.create delegate_create params).result
        = .error (.conflict "Unique constraint violation: details unavailable"))
    ∧ (¬(error.known = true ∧ error.code = "P2002") →
      (BaseRepository.create delegate_create params).result
        = .error (.internal "Error creating the record.")) := by
  refine ⟨?_, ?_, ?_⟩
  · intro fields hk hc ht
    simp [BaseRepository.create, h, hk, hc, BaseRepository.getTargetFields, ht]
  · intro hk hc ht
    have htv : BaseRepository.getTargetFields error = "details unavailable" := by
      cases hmt : error.target with
      | nullish => simp [BaseRepository.getTargetFields, hmt]
      | arr fields => exact absurd hmt (ht fields)
      | nonArr t => simp [BaseRepository.getTargetFields, hmt]
    simp [BaseRepository.create, h, hk, hc, htv]
  · intro hne
    have hcond : (error.known && error.code == "P2002") = false := by
      cases hk : error.known with
      | false => simp
      | true =>
        by_cases hc : error.code = "P2002"
        · exact absurd ⟨hk, hc⟩ hne
        · simp [hc]
    simp [BaseRepository.create, h, hcond]

/-- Witness for C1 at a concrete input: a P2002 failure with target fields
consisting of "email" makes `create` throw the conflict error naming
"email". -/
theorem repository_create_error_taxonomy_w :
    (BaseRepository.create failP2002Arr ()).result
      = .error (.conflict "Unique constraint violation: email") :=
  ((repository_create_error_taxonomy failP2002Arr () _ rfl).1
    ["email"] rfl rfl rfl).trans rfl

/-- C2: if `repository.findUnique` on the identifier filter returns null,
`service.findOneById` throws a `NotFoundException` naming the entity and the
id — in particular it never throws an `InternalServerErrorException` in that
case; if instead the repository call itself fails, `findOneById` throws an
`InternalServerErrorException` naming the entity and the id. -/
theorem service_findOneById_error_contract {M Id R : Type} [ToString Id]
    (ctx : BaseService.Ctx)
    (repository_findUnique :
      BaseService.FindUniqueParams Id R → Except RepoError (Option M))
    (id : Id) (repoParams : Option R) :
    (repository_findUnique ⟨⟨ctx.idKey, id⟩, repoParams⟩ = .ok none →
      (BaseService.findOneById ctx repository_findUnique id repoParams).result
        = .error (.notFound (ctx.getEntityName false ++ " with ID "
            ++ toString id ++ " not found.")))
    ∧ (repository_findUnique ⟨⟨ctx.idKey, id⟩, repoParams⟩ = .ok none →
      ∀ m, (BaseService.findOneById ctx repository_findUnique id repoParams).result
        ≠ .error (.internal m))
    ∧ (∀ e, repository_findUnique ⟨⟨ctx.idKey, id⟩, repoParams⟩ = .error e →
      (BaseService.findOneById ctx repository_findUnique id repoParams).result
        = .error (.internal ("An error occurred while retrieving "
            ++ ctx.getEntityName false ++ " with ID " ++ toString id ++ "."))) := by
  refine ⟨?_, ?_, ?_⟩
  · intro h0
    simp [BaseService.findOneById, h0]
  · intro h0 m
    simp [BaseService.findOneById, h0]
  · intro e he
    simp [BaseService.findOneById, he]

/-- Repository lookup that finds no record, over model type Nat. -/
def repoFindsNothing :
    BaseService.FindUniqueParams Nat Unit → Except RepoError (Option Nat) :=
  fun _ => Except.ok none

/-- Witness for C2 at a concrete input: for id 42 absent from storage,
`findOneById` throws the not-found error naming "User" and 42. -/
theorem service_findOneById_error_contract_w :
    (BaseService.findOneById userCtx repoFindsNothing 42 none).result
      = .error (.notFound "User with ID 42 not found.") :=
  ((service_findOneById_error_contract userCtx repoFindsNothing 42 none).1
    rfl).trans rfl

/-- C3: when the delegate invocation inside `BaseRepository.update` fails, a
recognized storage error with code P2025 yields a `NotFoundException`, one
with code P2002 yields a `ConflictException` under the same field-extraction
rule as `create`, and any other failure yields an
`InternalServerErrorException`. -/
theorem repository_update_error_taxonomy {P M : Type}
    (delegate_update : P → Except RawError M) (params : P) (error : RawError)
    (h : delegate_update params = .error error) :
    (error.known = true → error.code = "P2025" →
      (BaseRepository.update delegate_update params).result
        = .error (.notFound "Record to update not found."))
    ∧ (∀ fields, error.known = true → error.code = "P2002" →
      error.target = .arr fields →
      (BaseRepository.update delegate_update params).result
        = .error (.conflict ("Unique constraint violation: "
            ++ String.intercalate ", " fields)))
    ∧ (error.known = true → error.code = "P2002" →
      (∀ fields, error.target ≠ .arr fields) →
      (BaseRepository.update delegate_update params).result
        = .error (.conflict "Unique constraint violation: details unavailable"))
    ∧ (¬(error.known = true ∧ (error.code = "P2025" ∨ error.code = "P2002")) →
      (BaseRepository.update delegate_update params).result
        = .error (.internal "Error updating the record.")) := by
  refine ⟨?_, ?_, ?_, ?_⟩
  · intro hk hc
    simp [BaseRepository.update, h, hk, hc]
  · intro fields hk hc ht
    have hc25 : error.code ≠ "P2025" := by simp [hc]
    simp [BaseRepository.update, h, hk, hc, hc25,
      BaseRepository.getTargetFields, ht]
  · intro hk hc ht
    have hc25 : error.code ≠ "P2025" := by simp [hc]
    have htv : BaseRepository.getTargetFields error = "details unavailable" := by
      cases hmt : error.target with
      | nullish => simp [BaseRepository.getTargetFields, hmt]
      | arr fields => exact absurd hmt (ht fields)
      | nonArr t => simp [BaseRepository.getTargetFields, hmt]
    simp [BaseRepository.update, h, hk, hc, hc25, htv]
  · intro hne
    cases hk : error.known with
    | false => simp [BaseRepository.update, h, hk]
    | true =>
      by_cases hc25 : error.code = "P2025"
      · exact absurd ⟨hk, Or.inl hc25⟩ hne
      · by_cases hc02 : error.code = "P2002"
        · exact absurd ⟨hk, Or.inr hc02⟩ hne
        · simp [BaseRepository.update, h, hk, hc25, hc02]

/-- Witness for C3 at a concrete input: a P2025 failure makes `update` throw
the not-found error. -/
theorem repository_update_error_taxonomy_w :
    (BaseRepository.update failP2025 ()).result
      = .error (.notFound "Record to update not found.") :=
  (repository_update_error_taxonomy failP2025 () _ rfl).1 rfl rfl

/-- C4: `service.create` passes the DTO through unchanged as the data
payload of exactly one `repository.create` call; a `ConflictException` from
the repository is re-raised unchanged; any other failure becomes an
`InternalServerErrorException` naming the entity in singular form. -/
theorem service_create_contract {M D R : Type} (ctx : BaseService.Ctx)
    (repository_create : BaseService.CreateParams D R → Except RepoError M)
    (createDto : D) (repoParams : Option R) :
    (BaseService.create ctx repository_create createDto repoParams).repoInvocations
      = [⟨createDto, repoParams⟩]
    ∧ (∀ m, repository_create ⟨createDto, repoParams⟩ = .error (.conflict m) →
      (BaseService.create ctx repository_create createDto repoParams).result
        = .error (.conflict m))
    ∧ (∀ e, repository_create ⟨createDto, repoParams⟩ = .error e →
      (∀ m, e ≠ .conflict m) →
      (BaseService.create ctx repository_create createDto repoParams).result
        = .error (.internal ("Could not create "
            ++ ctx.getEntityName false ++ "."))) := by
  refine ⟨rfl, ?_, ?_⟩
  · intro m hm
    simp [BaseService.create, hm]
  · intro e he hne
    cases e with
    | conflict m => exact absurd rfl (hne m)
    | notFound m => simp [BaseService.create, he]
    | internal m => simp [BaseService.create, he]

/-- Repository create over model type Nat that throws a conflict error. -/
def repoCreateConflicts :
    BaseService.CreateParams String Unit → Except RepoError Nat :=
  fun _ => Except.error (.conflict "Unique constraint violation: email")

/-- Witness for C4 at a concrete input: a conflict from the repository is
re-raised unchanged by `service.create`. -/
theorem service_create_contract_w :
    (BaseService.create userCtx repoCreateConflicts "dto" none).result
      = .error (.conflict "Unique constraint violation: email") :=
  (service_create_contract userCtx repoCreateConflicts "dto" none).2.1
    "Unique constraint violation: email" rfl

/-- C5: `service.update` builds the identifier filter from the configured
key and the id, passes it with the DTO to exactly one `repository.update`
call, re-raises `NotFoundException` and `ConflictException` unchanged, and
wraps any other failure in an `InternalServerErrorException` naming entity
and id. -/
theorem service_update_contract {M Id D R : Type} [ToString Id]
    (ctx : BaseService.Ctx)
    (repository_update : BaseService.UpdateParams Id D R → Except RepoError M)
    (id : Id) (updateDto : D) (repoParams : Option R) :
    (BaseService.update ctx repository_update id updateDto repoParams).repoInvocations
      = [⟨⟨ctx.idKey, id⟩, updateDto, repoParams⟩]
    ∧ (∀ m, repository_update ⟨⟨ctx.idKey, id⟩, updateDto, repoParams⟩
        = .error (.notFound m) →
      (BaseService.update ctx repository_update id updateDto repoParams).result
        = .error (.notFound m))
    ∧ (∀ m, repository_update ⟨⟨ctx.idKey, id⟩, updateDto, repoParams⟩
        = .error (.conflict m) →
      (BaseService.update ctx repository_update id updateDto repoParams).result
        = .error (.conflict m))
    ∧ (∀ m, repository_update ⟨⟨ctx.idKey, id⟩, updateDto, repoParams⟩
        = .error (.internal m) →
      (BaseService.update ctx repository_update id updateDto repoParams).result
        = .error (.internal ("Could not update " ++ ctx.getEntityName false
            ++ " with ID " ++ toString id ++ "."))) := by
  refine ⟨rfl, ?_, ?_, ?_⟩
  · intro m hm
    simp [BaseService.update, hm]
  · intro m hm
    simp [BaseService.update, hm]
  · intro m hm
    simp [BaseService.update, hm]

/-- Repository update over model type Nat that throws a not-found error. -/
def repoUpdateNotFound :
    BaseService.UpdateParams Nat String Unit → Except RepoError Nat :=
  fun _ => Except.error (.notFound "Record to update not found.")

/-- Witness for C5 at a concrete input: a not-found from the repository is
re-raised unchanged by `service.update`. -/
theorem service_update_contract_w :
    (BaseService.update userCtx repoUpdateNotFound 42 "dto" none).result
      = .error (.notFound "Record to update not found.") :=
  (service_update_contract userCtx repoUpdateNotFound 42 "dto" none).2.1
    "Record to update not found." rfl

/-- C6: `repository.findUnique` returns null (i.e. `none`) rather than
failing when the delegate lookup matches zero records; its only failure mode
is an `InternalServerErrorException`, raised exactly when the delegate
invocation fails — it never throws `NotFoundException` or
`ConflictException`. -/
theorem repository_findUnique_contract {P M : Type}
    (delegate_findUnique : P → Except RawError (Option M)) (params : P) :
    (delegate_findUnique params = .ok none →
      (BaseRepository.findUnique delegate_findUnique params).result = .ok none)
    ∧ (∀ e, delegate_findUnique params = .error e →
      (BaseRepository.findUnique delegate_findUnique params).result
        = .error (.internal "Error retrieving the record."))
    ∧ (∀ v, delegate_findUnique params = .ok v →
      (BaseRepository.findUnique delegate_findUnique params).result = .ok v)
    ∧ (∀ m, (BaseRepository.findUnique delegate_findUnique params).result
        ≠ .error (.notFound m)
      ∧ (BaseRepository.findUnique delegate_findUnique params).result
        ≠ .error (.conflict m)) := by
  refine ⟨?_, ?_, ?_, ?_⟩
  · intro h0
    simp [BaseRepository.findUnique, h0]
  · intro e he
    simp [BaseRepository.findUnique, he]
  · intro v hv
    simp [BaseRepository.findUnique, hv]
  · intro m
    cases hd : delegate_findUnique params with
    | ok v => simp [BaseRepository.findUnique, hd]
    | error e => simp [BaseRepository.findUnique, hd]

/-- Delegate lookup over model type Nat that finds no record. -/
def delegateFindsNothing : Unit → Except RawError (Option Nat) :=
  fun _ => Except.ok none

/-- Witness for C6 at a concrete input: a lookup matching zero records
returns `none` rather than an error. -/
theorem repository_findUnique_contract_w :
    (BaseRepository.findUnique delegateFindsNothing ()).result = .ok none :=
  (repository_findUnique_contract delegateFindsNothing ()).1 rfl

/-- C7: every repository operation invokes the bound delegate's
corresponding operation exactly once — the recorded invocation list of each
of the six methods is exactly the singleton of the parameter object passed,
on success and failure paths alike, so no call is skipped, repeated, or
retried, and the result is a single value or a single normalized error. -/
theorem repository_single_invocation {P M : Type}
    (dfu : P → Except RawError (Option M)) (dfm : P → Except RawError (List M))
    (dc : P → Except RawError M) (du : P → Except RawError M)
    (dd : P → Except RawError M) (dcnt : P → Except RawError Nat)
    (p₁ p₂ p₃ p₄ p₅ p₆ : P) :
    (BaseRepository.findUnique dfu p₁).invocations = [p₁]
    ∧ (BaseRepository.findMany dfm p₂).invocations = [p₂]
    ∧ (BaseRepository.create dc p₃).invocations = [p₃]
    ∧ (BaseRepository.update du p₄).invocations = [p₄]
    ∧ (BaseRepository.delete dd p₅).invocations = [p₅]
    ∧ (BaseRepository.count dcnt p₆).invocations = [p₆] :=
  ⟨rfl, rfl, rfl, rfl, rfl, rfl⟩

/-- C8: for an identifier present in storage — the delegate lookup on the
identifier filter returns the record — two successive evaluations of
`service.findOneById` over the unchanged, deterministic delegate (in this
embedding a pure function, so delegate state is unchanged by construction)
both return the same Model; the two conjuncts are the first and the second
call. -/
theorem service_findOneById_idempotent {M Id R : Type} [ToString Id]
    (ctx : BaseService.Ctx)
    (delegate_findUnique :
      BaseService.FindUniqueParams Id R → Except RawError (Option M))
    (id : Id) (repoParams : Option R) (m : M)
    (h : delegate_findUnique ⟨⟨ctx.idKey, id⟩, repoParams⟩ = .ok (some m)) :
    (findOneByIdPipeline ctx delegate_findUnique id repoParams).result = .ok m
    ∧ (findOneByIdPipeline ctx delegate_findUnique id repoParams).result
        = .ok m := by
  constructor <;>
    simp [findOneByIdPipeline, BaseService.findOneById,
      BaseRepository.findUnique, h]

/-- Delegate lookup over model type Nat that always finds the record 7. -/
def delegateFindsSeven :
    BaseService.FindUniqueParams Nat Unit → Except RawError (Option Nat) :=
  fun _ => Except.ok (some 7)

/-- Witness for C8 at a concrete input: with the record 7 stored under id
42, both successive reads return 7. -/
theorem service_findOneById_idempotent_w :
    (findOneByIdPipeline userCtx delegateFindsSeven 42 none).result = .ok 7
    ∧ (findOneByIdPipeline userCtx delegateFindsSeven 42 none).result
        = .ok 7 :=
  service_findOneById_idempotent userCtx delegateFindsSeven 42 none 7 rfl

/-- C9: `service.delete` re-raises only `NotFoundException` from the
repository; a `ConflictException` — like any other non-not-found failure —
is wrapped into a fresh `InternalServerErrorException` naming entity and id,
so a conflict during delete is never surfaced as `ConflictException`. -/
theorem service_delete_contract {M Id : Type} [ToString Id]
    (ctx : BaseService.Ctx)
    (repository_delete : BaseService.DeleteParams Id → Except RepoError M)
    (id : Id) :
    (∀ m, repository_delete ⟨⟨ctx.idKey, id⟩⟩ = .error (.notFound m) →
      (BaseService.delete ctx repository_delete id).result
        = .error (.notFound m))
    ∧ (∀ m, repository_delete ⟨⟨ctx.idKey, id⟩⟩ = .error (.conflict m) →
      (BaseService.delete ctx repository_delete id).result
        = .error (.internal ("Could not delete " ++ ctx.getEntityName false
            ++ " with ID " ++ toString id ++ "."))
      ∧ ∀ m', (BaseService.delete ctx repository_delete id).result
          ≠ .error (.conflict m'))
    ∧ (∀ m, repository_delete ⟨⟨ctx.idKey, id⟩⟩ = .error (.internal m) →
      (BaseService.delete ctx repository_delete id).result
        = .error (.internal ("Could not delete " ++ ctx.getEntityName false
            ++ " with ID " ++ toString id ++ "."))) := by
  refine ⟨?_, ?_, ?_⟩
  · intro m hm
    simp [BaseService.delete, hm]
  · intro m hm
    refine ⟨by simp [BaseService.delete, hm], ?_⟩
    intro m'
    simp [BaseService.delete, hm]
  · intro m hm
    simp [BaseService.delete, hm]

/-- Repository delete over model type Nat that throws a conflict error. -/
def repoDeleteConflicts :
    BaseService.DeleteParams Nat → Except RepoError Nat :=
  fun _ => Except.error (.conflict "Unique constraint violation: email")

/-- Witness for C9 at a concrete input: a conflict during delete is wrapped
into an internal error naming "User" and 42. -/
theorem service_delete_contract_w :
    (BaseService.delete userCtx repoDeleteConflicts 42).result
      = .error (.internal "Could not delete User with ID 42.") :=
  (((service_delete_contract userCtx repoDeleteConflicts 42).2.1
    "Unique constraint violation: email" rfl).1).trans rfl

/-- C10: in the src/src variant, a delegate failure with a known P2002 error
whose `meta.target` is a truthy value without a `join` method makes the
normalization branch of `create` and of `update` itself throw, so the caller
receives neither a conflict, a not-found, nor an internal error; the backend
variant's `getTargetFields` guards the same metadata with `Array.isArray`
and returns "details unavailable". -/
theorem srcvariant_getTargetFields_divergence :
    SrcVariant.create
      (fun _ => (Except.error ⟨true, "P2002", .nonArr true⟩ :
        Except RawError Unit)) ()
      = SrcVariant.Outcome.secondaryThrow
    ∧ (∀ e : RepoError, SrcVariant.create
        (fun _ => (Except.error ⟨true, "P2002", .nonArr true⟩ :
          Except RawError Unit)) ()
        ≠ SrcVariant.Outcome.err e)
    ∧ SrcVariant.update
        (fun _ => (Except.error ⟨true, "P2002", .nonArr true⟩ :
          Except RawError Unit)) ()
        = SrcVariant.Outcome.secondaryThrow
    ∧ BaseRepository.getTargetFields ⟨true, "P2002", .nonArr true⟩
        = "details unavailable" := by
  refine ⟨rfl, ?_, rfl, rfl⟩
  intro e
  simp [SrcVariant.create, SrcVariant.getTargetFields]
